import Mathlib

/-!
Shallow embedding of the transaction aggregation and analysis pipeline of the
`bank_fixtures` repository (src/services.py, src/utils.py, src/reports.py,
src/views.py), together with theorems settling the frozen claims about it.

Modelling conventions:
* A datetime instant is a pair of a day number (days since 1970-01-01 in the
  proleptic Gregorian calendar, the civil-calendar day count) and the number of
  seconds within the day.  `civilFromDays` / `daysFromCivil` are the standard
  civil-calendar conversions used to read off year/month/day fields and to
  implement Python's `date.replace(day=1)` etc.  `weekdayOf` is
  `datetime.weekday()` (Monday = 0); day 0 (1970-01-01) is a Thursday.
* Python `float` amounts are modelled as exact rationals `ℚ`; the float
  literal `0.01` of the source is the rational `1/100`.  Python's float floor
  division `//` is `Int.floor` of the exact quotient.  Python's `round`
  (banker's rounding, half to even) is `round_half_even`.
* Heterogeneous raw fields of a transaction record are tagged unions.  String
  parsing (`float(s)` after `,`→`.`/space substitution, and
  `datetime.strptime` against the three formats) is abstracted by its outcome:
  a string field is represented by the value it parses to, or by a marker that
  it parses to nothing.  Dictionary keys that may be absent or hold null are
  `Option (Option _)`.
* A pandas `DataFrame` of transactions is a list of rows plus a flag recording
  whether the "Дата операции" column exists; `NaT` / `NaN` cells are `none`
  (comparisons with `NaT` are false, and `groupby` drops `NaN` keys, which the
  embedding reproduces).  The sorting performed by pandas (`groupby` sorted
  keys, `sort_values`) is modelled by the stable `List.insertionSort`.
-/

namespace BankFixtures

set_option maxRecDepth 100000

/-- A datetime instant: `days` = civil days since 1970-01-01, `secs` = seconds
within the day. -/
structure DateTime where
  days : ℤ
  secs : ℤ
deriving DecidableEq, Repr

/-- Civil-calendar conversion, days-since-1970 to `(year, month, day)`
(Gregorian, proleptic). -/
def civilFromDays (z : ℤ) : ℤ × ℤ × ℤ :=
  let z' := z + 719468
  let era := z'.ediv 146097
  let doe := z' - era * 146097
  let yoe := (doe - doe.ediv 1460 + doe.ediv 36524 - doe.ediv 146096).ediv 365
  let y := yoe + era * 400
  let doy := doe - (365 * yoe + yoe.ediv 4 - yoe.ediv 100)
  let mp := (5 * doy + 2).ediv 153
  let d := doy - (153 * mp + 2).ediv 5 + 1
  let m := mp + (if mp < 10 then 3 else -9)
  (if m ≤ 2 then y + 1 else y, m, d)

/-- Civil-calendar conversion, `(year, month, day)` to days since 1970-01-01. -/
def daysFromCivil (y m d : ℤ) : ℤ :=
  let y' := if m ≤ 2 then y - 1 else y
  let era := y'.ediv 400
  let yoe := y' - era * 400
  let mp := if 2 < m then m - 3 else m + 9
  let doy := (153 * mp + 2).ediv 5 + d - 1
  let doe := yoe * 365 + yoe.ediv 4 - yoe.ediv 100 + doy
  era * 146097 + doe - 719468

/-- Year field of an instant (`datetime.year`). -/
def DateTime.year (t : DateTime) : ℤ := (civilFromDays t.days).1

/-- Month field of an instant (`datetime.month`). -/
def DateTime.month (t : DateTime) : ℤ := (civilFromDays t.days).2.1

/-- `datetime.weekday()`: Monday = 0 … Sunday = 6.  Day 0 (1970-01-01) is a
Thursday. -/
def weekdayOf (z : ℤ) : ℤ := (z + 3) % 7

/-- Chronological order on instants (lexicographic on day then second). -/
def dtLe (a b : DateTime) : Prop :=
  a.days < b.days ∨ (a.days = b.days ∧ a.secs ≤ b.secs)

instance (a b : DateTime) : Decidable (dtLe a b) := by
  unfold dtLe
  infer_instance

/-- Boolean form of `dtLe`, used where the source compares datetimes. -/
def dtLeB (a b : DateTime) : Bool :=
  a.days < b.days || (a.days == b.days && a.secs ≤ b.secs)

/-! Raw fields of a service-layer transaction record (a Python dict).
String parsing is abstracted by its outcome. -/

/-- The raw "Дата операции" field of a record. -/
inductive RawDate where
  /-- The key is absent from the record. -/
  | missing
  /-- The key is present with value `None`. -/
  | null
  /-- A native `datetime` / `pd.Timestamp` value. -/
  | dt (d : DateTime)
  /-- A string matching one of the three accepted formats, parsing to `d`. -/
  | strOk (d : DateTime)
  /-- A string matching none of the accepted formats. -/
  | strBad
deriving DecidableEq

/-- The raw "Сумма операции" field of a record. -/
inductive RawAmount where
  /-- The key is absent (`dict.get` yields the default `0`). -/
  | missing
  /-- The key is present with value `None`. -/
  | null
  /-- A native numeric value (int / float / Decimal). -/
  | num (q : ℚ)
  /-- A string that, after `,`→`.` and space removal, parses to `q`. -/
  | strOk (q : ℚ)
  /-- A string `float()` rejects even after the substitutions. -/
  | strBad
deriving DecidableEq

/-- A service-layer transaction record.  The category key may be absent
(`none`) or present with null (`some none`). -/
structure STransaction where
  opDate : RawDate
  amount : RawAmount
  category : Option (Option String)
deriving DecidableEq

/-- The date filter shared by `profitable_cashback_categories.filter_by_date`
and `investment_bank.filter_by_month`: native datetimes compare year and month
directly, strings are parsed against the three formats first, anything else is
rejected. -/
def matchesYearMonth (year month : ℤ) : RawDate → Bool
  | .dt d => d.year == year && d.month == month
  | .strOk d => d.year == year && d.month == month
  | _ => false

/-- The amount-reading path shared by `calculate_cashback` and
`calculate_rounding`: a missing key defaults to `0`, a null value or a
malformed string yields nothing (the record is skipped), otherwise the numeric
value is produced. -/
def parseAmountField : RawAmount → Option ℚ
  | .missing => some 0
  | .null => none
  | .num q => some q
  | .strOk q => some q
  | .strBad => none

/-- `str(transaction.get("Категория", "Другое"))`: an absent key defaults to
the literal "Другое"; a present null is stringified to "None". -/
def categoryStr : Option (Option String) → String
  | none => "Другое"
  | some none => "None"
  | some (some s) => s

/-- Python-dict accumulation `acc[k] = acc.get(k, 0.0) + v`: update in place,
preserving insertion order, appending a new key at the end. -/
def upsertAdd : List (String × ℚ) → String → ℚ → List (String × ℚ)
  | [], k, v => [(k, v)]
  | (k', v') :: rest, k, v =>
      if k' = k then (k', v' + v) :: rest else (k', v') :: upsertAdd rest k v

/-- The fold step of `profitable_cashback_categories` (src/services.py,
`calculate_cashback`). -/
def calculate_cashback (acc : List (String × ℚ)) (t : STransaction) :
    List (String × ℚ) :=
  match parseAmountField t.amount with
  | none => acc
  | some amount =>
      if 0 ≤ amount then acc
      else
        let category := categoryStr t.category
        let cashback := |amount| * (1 / 100)
        upsertAdd acc category cashback

/-- `profitable_cashback_categories` (src/services.py): filter to the given
year/month, then fold `calculate_cashback` over the remaining records starting
from the empty dict. -/
def profitable_cashback_categories (data : List STransaction)
    (year month : ℤ) : List (String × ℚ) :=
  let monthly := data.filter (fun t => matchesYearMonth year month t.opDate)
  monthly.foldl calculate_cashback []

/-- The month argument of `investment_bank`, abstracted: the list of the
dash-separated pieces of the string, each piece carried as the integer `int()`
parses it to, or `none` if `int()` rejects it. -/
def parseMonthArg : List (Option ℤ) → Option (ℤ × ℤ)
  | [some y, some m] => some (y, m)
  | _ => none

/-- The fold step of `investment_bank` (src/services.py,
`calculate_rounding`): for a parsed negative amount, round its magnitude with
float floor division `((amount_abs + limit - 1) // limit) * limit` and
accumulate `max(rounded - amount_abs, 0)`. -/
def calculate_rounding (limit : ℤ) (acc : ℚ) (t : STransaction) : ℚ :=
  match parseAmountField t.amount with
  | none => acc
  | some amount =>
      if 0 ≤ amount then acc
      else
        let amountAbs := |amount|
        let roundedAmount : ℚ := (((amountAbs + limit - 1) / (limit : ℚ)).floor : ℚ) * limit
        let difference := roundedAmount - amountAbs
        acc + max difference 0

/-- `investment_bank` (src/services.py): parse the month string (returning
`0.0` on failure), filter to the month, fold `calculate_rounding` from `0.0`. -/
def investment_bank (month : List (Option ℤ)) (transactions : List STransaction)
    (limit : ℤ) : ℚ :=
  match parseMonthArg month with
  | none => 0
  | some (year, monthNum) =>
      let monthly := transactions.filter
        (fun t => matchesYearMonth year monthNum t.opDate)
      monthly.foldl (calculate_rounding limit) 0

/-! Embedding of src/utils.py: date ranges and DataFrame date filtering. -/

/-- The `period` argument of `get_date_range`: the four recognized strings,
plus a marker for any other string (the silent fallback branch). -/
inductive Period where
  | W
  | M
  | Y
  | ALL
  | other
deriving DecidableEq

/-- `get_date_range` (src/utils.py): W = Monday of the reference's week to
Monday + 6 days; M = first of the month to the reference; Y = Jan 1 to the
reference; ALL = 1900-01-01 to the reference; anything else behaves like M.
Every non-ALL start keeps the reference's time-of-day. -/
def get_date_range (date : DateTime) (period : Period) : DateTime × DateTime :=
  match period with
  | .W =>
      let startDate : DateTime := ⟨date.days - weekdayOf date.days, date.secs⟩
      let endDate : DateTime := ⟨startDate.days + 6, startDate.secs⟩
      (startDate, endDate)
  | .M => (⟨daysFromCivil date.year date.month 1, date.secs⟩, date)
  | .Y => (⟨daysFromCivil date.year 1 1, date.secs⟩, date)
  | .ALL => (⟨daysFromCivil 1900 1 1, 0⟩, date)
  | .other => (⟨daysFromCivil date.year date.month 1, date.secs⟩, date)

/-- A row of the transaction DataFrame: operation date (`none` = `NaT`),
category (`none` = `NaN`), and the numeric operation amount. -/
structure FrameRow where
  opDate : Option DateTime
  category : Option String
  amount : ℚ
deriving DecidableEq

/-- A transaction DataFrame: its rows, plus whether the "Дата операции"
column exists at all. -/
structure TransactionFrame where
  hasOpDate : Bool
  rows : List FrameRow
deriving DecidableEq

/-- The window mask `start_date <= date <= end_date` of a row; a missing
(`NaT`) date compares false, so the row is dropped. -/
def inWindowRow (startDate endDate : DateTime) (r : FrameRow) : Bool :=
  match r.opDate with
  | none => false
  | some d => dtLeB startDate d && dtLeB d endDate

/-- `filter_transactions_by_date` (src/utils.py): with no date column return
the input unchanged, else keep rows inside the inclusive window. -/
def filter_transactions_by_date (transactions : TransactionFrame)
    (startDate endDate : DateTime) : TransactionFrame :=
  if transactions.hasOpDate = false then transactions
  else { transactions with
          rows := transactions.rows.filter (inWindowRow startDate endDate) }

/-! Embedding of src/reports.py: `spending_by_category`. -/

/-- The `to_period("M")` key of an instant: calendar months counted linearly,
so that the pandas ascending `Period` order is the order on `ℤ`. -/
def monthKey (d : DateTime) : ℤ :=
  let c := civilFromDays d.days
  c.1 * 12 + c.2.1

/-- `spending_by_category` (src/reports.py): keep rows of the exact category
whose operation date lies in the inclusive 90-day window ending at the anchor,
group them by calendar month (pandas emits group keys sorted ascending), and
report the absolute value of the signed sum of each month's amounts. -/
def spending_by_category (transactions : List FrameRow) (category : String)
    (endDate : DateTime) : List (ℤ × ℚ) :=
  let startDate : DateTime := ⟨endDate.days - 90, endDate.secs⟩
  let filteredData := transactions.filter
    (fun r => inWindowRow startDate endDate r && r.category == some category)
  if filteredData.isEmpty then []
  else
    let rows : List (ℤ × ℚ) := filteredData.filterMap
      (fun r => r.opDate.map (fun d => (monthKey d, r.amount)))
    let months := List.insertionSort (· ≤ ·) (rows.map Prod.fst).dedup
    months.map
      (fun m => (m, |((rows.filter (fun p => p.1 == m)).map Prod.snd).sum|))

/-! Embedding of src/views.py: `events_page_data` aggregates.  The greeting,
settings and live quotes are external collaborators and are not part of the
aggregation contract. -/

/-- Python's `round` to an integer: banker's rounding, half to even. -/
def round_half_even (q : ℚ) : ℤ :=
  let f := q.floor
  let r := q - f
  if r < 1 / 2 then f
  else if 1 / 2 < r then f + 1
  else if f % 2 = 0 then f else f + 1

/-- Python's `round(x, 2)`: banker's rounding at two decimal places. -/
def round2 (q : ℚ) : ℚ := (round_half_even (q * 100) : ℚ) / 100

/-- Descending order on category/value pairs used by
`sort_values(ascending=False)`. -/
def valGe (a b : String × ℚ) : Prop := b.2 ≤ a.2

instance (a b : String × ℚ) : Decidable (valGe a b) := by
  unfold valGe
  infer_instance

instance : IsTotal (String × ℚ) valGe := ⟨fun a b => le_total b.2 a.2⟩

instance : IsTrans (String × ℚ) valGe :=
  ⟨fun _ _ _ h h' => le_trans h' h⟩

/-- pandas `groupby(...)["col"].sum()`: one `(key, sum)` pair per distinct key,
keys sorted ascending. -/
def groupSumsByCategory (pairs : List (String × ℚ)) : List (String × ℚ) :=
  (List.insertionSort (· ≤ ·) (pairs.map Prod.fst).dedup).map
    (fun c => (c, ((pairs.filter (fun p => p.1 == c)).map Prod.snd).sum))

/-- The aggregate portion of the events-page payload. -/
structure EventsPageData where
  expensesTotal : ℤ
  expensesMain : List (String × ℚ)
  cashTransfers : List (String × ℚ)
  incomeTotal : ℤ
  incomeMain : List (String × ℚ)
deriving DecidableEq

/-- `events_page_data` (src/views.py), aggregation part: window-filter the
frame, split by sign, group absolute expenses by category, sort descending by
value, emit the top 7 (2-decimal rounded) plus an "Остальное" entry holding
the remainder when more than 7 categories exist and the remainder is positive;
headline totals are rounded to the nearest whole unit.  `groupby` drops rows
with a `NaN` category. -/
def events_page_data (transactions : TransactionFrame) (dateTime : DateTime)
    (period : Period) : EventsPageData :=
  let w := get_date_range dateTime period
  let filtered := filter_transactions_by_date transactions w.1 w.2
  let expensesData := filtered.rows.filter (fun r => r.amount < 0)
  let totalExpenses := (expensesData.map (fun r => |r.amount|)).sum
  let expensePairs : List (String × ℚ) := expensesData.filterMap
    (fun r => r.category.map (fun c => (c, |r.amount|)))
  let categoryExpenses :=
    List.insertionSort valGe (groupSumsByCategory expensePairs)
  let topCategories := categoryExpenses.take 7
  let otherCategories : ℚ :=
    if 7 < categoryExpenses.length
    then ((categoryExpenses.drop 7).map Prod.snd).sum else 0
  let mainCategories :=
    topCategories.map (fun p => (p.1, round2 p.2)) ++
      (if 0 < otherCategories then [("Остальное", round2 otherCategories)]
       else [])
  let cashPairs := expensePairs.filter
    (fun p => p.1 == "Наличные" || p.1 == "Переводы")
  let cashTransfers :=
    (List.insertionSort valGe (groupSumsByCategory cashPairs)).map
      (fun p => (p.1, round2 p.2))
  let incomeData := filtered.rows.filter (fun r => 0 < r.amount)
  let totalIncome := (incomeData.map FrameRow.amount).sum
  let incomePairs : List (String × ℚ) := incomeData.filterMap
    (fun r => r.category.map (fun c => (c, r.amount)))
  let mainIncome :=
    (List.insertionSort valGe (groupSumsByCategory incomePairs)).map
      (fun p => (p.1, round2 p.2))
  { expensesTotal := round_half_even totalExpenses
    expensesMain := mainCategories
    cashTransfers := cashTransfers
    incomeTotal := round_half_even totalIncome
    incomeMain := mainIncome }

/-! Helper lemmas about the investment round-up fold. -/

/-- The per-amount round-up: the code's float floor-division rounding applied
to a magnitude `a`, clamped at zero. -/
def roundupContribution (limit : ℤ) (a : ℚ) : ℚ :=
  max ((((a + limit - 1) / (limit : ℚ)).floor : ℚ) * limit - a) 0

/-- What a single record adds to the round-up accumulator. -/
def contributionOf (limit : ℤ) (t : STransaction) : ℚ :=
  match parseAmountField t.amount with
  | none => 0
  | some a => if 0 ≤ a then 0 else roundupContribution limit |a|

/-- The magnitudes of the records that qualify for the round-up (parsed
amount present and negative). -/
def qualifyingAbs (txs : List STransaction) : List ℚ :=
  txs.filterMap
    (fun t => (parseAmountField t.amount).bind
      (fun a => if a < 0 then some |a| else none))

/-- The round-up formula in the words of the specification: the smallest
multiple of `limit` that is at least `a`, via true ceiling division, clamped
at zero.  Stated only to be compared against the code's
`roundupContribution`. -/
def spec_roundup (limit : ℤ) (a : ℚ) : ℚ :=
  max (((a / (limit : ℚ)).ceil : ℚ) * limit - a) 0

/-- A claim-side read of what a transaction-record dictionary accumulates:
`lookupD l k` is the value the mapping associates to `k`, `0` when absent. -/
def lookupD : List (String × ℚ) → String → ℚ
  | [], _ => 0
  | (k', v) :: rest, k => if k' = k then v else lookupD rest k

/-- What a single record adds to the cashback bucket of category `cat`. -/
def cashbackContribution (cat : String) (t : STransaction) : ℚ :=
  match parseAmountField t.amount with
  | none => 0
  | some a =>
      if 0 ≤ a then 0
      else if categoryStr t.category = cat then |a| * (1 / 100) else 0

/-- The 90-day-window and exact-category row filter of
`spending_by_category`, claim side. -/
def passesCategoryWindow (category : String) (endDate : DateTime)
    (r : FrameRow) : Bool :=
  inWindowRow ⟨endDate.days - 90, endDate.secs⟩ endDate r
    && r.category == some category

/-- The calendar month of a row's operation date, when present. -/
def rowMonth (r : FrameRow) : Option ℤ := r.opDate.map monthKey

/-- The signed sum of the amounts of the rows of a given month that pass the
window-and-category filter. -/
def monthAmountSum (txs : List FrameRow) (category : String)
    (endDate : DateTime) (m : ℤ) : ℚ :=
  (((txs.filter (passesCategoryWindow category endDate)).filter
      (fun r => rowMonth r == some m)).map FrameRow.amount).sum

/-- The `(month, amount)` pairs of the rows passing the window-and-category
filter (the grouping input of `spending_by_category`). -/
def monthRows (txs : List FrameRow) (category : String)
    (endDate : DateTime) : List (ℤ × ℚ) :=
  (txs.filter (passesCategoryWindow category endDate)).filterMap
    (fun r => r.opDate.map (fun d => (monthKey d, r.amount)))

/-- The distinct months present among the filtered rows, sorted ascending
(the group keys pandas emits). -/
def monthsSorted (txs : List FrameRow) (category : String)
    (endDate : DateTime) : List ℤ :=
  List.insertionSort (· ≤ ·)
    ((monthRows txs category endDate).map Prod.fst).dedup

/-- The rows of the frame once filtered to the events-page window. -/
def eventsWindowRows (t : TransactionFrame) (dt : DateTime) (p : Period) :
    List FrameRow :=
  (filter_transactions_by_date t (get_date_range dt p).1
    (get_date_range dt p).2).rows

/-- The `(category, absolute amount)` pairs of the expense rows of the
events-page window whose category is present. -/
def eventsExpensePairs (t : TransactionFrame) (dt : DateTime) (p : Period) :
    List (String × ℚ) :=
  ((eventsWindowRows t dt p).filter (fun r => r.amount < 0)).filterMap
    (fun r => r.category.map (fun c => (c, |r.amount|)))

/-- The per-category expense aggregates of the events page, sorted descending
by value (`sort_values(ascending=False)`). -/
def eventsSortedCats (t : TransactionFrame) (dt : DateTime) (p : Period) :
    List (String × ℚ) :=
  List.insertionSort valGe (groupSumsByCategory (eventsExpensePairs t dt p))

/-- The transaction fixture of the repository's test suite (tests/
test_services.py, `sample_transactions`), in the embedding: the six October
2023 expenses, a November expense, a dateless record, and an October refund. -/
def octoberSample : List STransaction :=
  [⟨.strOk ⟨daysFromCivil 2023 10 5, 43200⟩, .strOk (-1500), some (some "Супермаркеты")⟩,
   ⟨.strOk ⟨daysFromCivil 2023 10 10, 55800⟩, .strOk (-401/2), some (some "АЗС")⟩,
   ⟨.strOk ⟨daysFromCivil 2023 11 1, 33300⟩, .strOk (-3000), some (some "Рестораны")⟩,
   ⟨.dt ⟨daysFromCivil 2023 10 15, 50400⟩, .num (-2003/4), some (some "Такси")⟩,
   ⟨.strOk ⟨daysFromCivil 2023 10 1, 31500⟩, .strOk (-100), some (some "Супермаркеты")⟩,
   ⟨.null, .strOk (-50), some (some "Прочее")⟩,
   ⟨.strOk ⟨daysFromCivil 2023 10 20, 0⟩, .strOk 150, some (some "Возврат")⟩,
   ⟨.strOk ⟨daysFromCivil 2023 10 25, 69600⟩, .strOk (-1200), some (some "Переводы")⟩,
   ⟨.strOk ⟨daysFromCivil 2023 10 18, 43200⟩, .strOk (-500), some (some "Переводы")⟩]

/-- Claim-side view of the cashback accumulation: the `(bucket, cashback)`
pairs of the qualifying records of the month — parsed amount present and
negative — where the bucket is the stringified category. -/
def cashbackRows (data : List STransaction) (year month : ℤ) :
    List (String × ℚ) :=
  (data.filter (fun t => matchesYearMonth year month t.opDate)).filterMap
    (fun t => (parseAmountField t.amount).bind
      (fun a => if a < 0
        then some (categoryStr t.category, |a| * (1 / 100)) else none))

theorem dtLeB_iff (a b : DateTime) : dtLeB a b = true ↔ dtLe a b := by
  simp [dtLeB, dtLe]

theorem calculate_rounding_eq (limit : ℤ) (acc : ℚ) (t : STransaction) :
    calculate_rounding limit acc t = acc + contributionOf limit t := by
  unfold calculate_rounding contributionOf roundupContribution
  cases h : parseAmountField t.amount with
  | none => simp
  | some a =>
      by_cases ha : 0 ≤ a
      · simp [ha]
      · simp [ha]

theorem contributionOf_nonneg (limit : ℤ) (t : STransaction) :
    0 ≤ contributionOf limit t := by
  unfold contributionOf
  cases parseAmountField t.amount with
  | none => exact le_refl 0
  | some a =>
      by_cases ha : 0 ≤ a
      · simp [ha]
      · simp only [ha, if_false]
        exact le_max_right _ 0

theorem foldl_calculate_rounding (limit : ℤ) (l : List STransaction) (acc : ℚ) :
    l.foldl (calculate_rounding limit) acc
      = acc + (l.map (contributionOf limit)).sum := by
  induction l generalizing acc with
  | nil => simp
  | cons t rest ih =>
      simp only [List.foldl_cons, List.map_cons, List.sum_cons]
      rw [calculate_rounding_eq, ih]
      ring

theorem map_contribution_eq_qualifying (limit : ℤ) (l : List STransaction) :
    (l.map (contributionOf limit)).sum
      = ((qualifyingAbs l).map (roundupContribution limit)).sum := by
  induction l with
  | nil => simp [qualifyingAbs]
  | cons t rest ih =>
      simp only [qualifyingAbs, List.filterMap_cons, List.map_cons,
        List.sum_cons] at *
      cases h : parseAmountField t.amount with
      | none => simpa [contributionOf, h] using ih
      | some a =>
          by_cases ha : a < 0
          · have hna : ¬ 0 ≤ a := not_le.mpr ha
            simp [contributionOf, h, hna, ha, ih]
          · have hna : 0 ≤ a := not_lt.mp ha
            simp [contributionOf, h, hna, ha, ih]

theorem lookupD_upsertAdd (l : List (String × ℚ)) (k : String) (v : ℚ)
    (c : String) :
    lookupD (upsertAdd l k v) c = lookupD l c + if k = c then v else 0 := by
  induction l with
  | nil => by_cases h : k = c <;> simp [upsertAdd, lookupD, h]
  | cons p rest ih =>
      obtain ⟨k', v'⟩ := p
      by_cases hk : k' = k
      · subst hk
        by_cases hc : k' = c
        · subst hc
          simp [upsertAdd, lookupD]
        · simp [upsertAdd, lookupD, hc]
      · by_cases hc : k' = c
        · subst hc
          have hkc : k ≠ k' := fun h => hk h.symm
          simp [upsertAdd, lookupD, hk, hkc]
        · simp [upsertAdd, lookupD, hk, hc, ih]

theorem lookupD_calculate_cashback (acc : List (String × ℚ))
    (t : STransaction) (c : String) :
    lookupD (calculate_cashback acc t)
      c = lookupD acc c + cashbackContribution c t := by
  unfold calculate_cashback cashbackContribution
  cases h : parseAmountField t.amount with
  | none => simp
  | some a =>
      by_cases ha : 0 ≤ a
      · simp [ha]
      · simp only [ha, if_false]
        rw [lookupD_upsertAdd]

theorem lookupD_foldl_cashback (l : List STransaction)
    (acc : List (String × ℚ)) (c : String) :
    lookupD (l.foldl calculate_cashback acc) c
      = lookupD acc c + (l.map (cashbackContribution c)).sum := by
  induction l generalizing acc with
  | nil => simp
  | cons t rest ih =>
      simp only [List.foldl_cons, List.map_cons, List.sum_cons]
      rw [ih, lookupD_calculate_cashback]
      ring

theorem calculate_cashback_skip (acc : List (String × ℚ)) (t : STransaction)
    (h : ∀ a, parseAmountField t.amount = some a → 0 ≤ a) :
    calculate_cashback acc t = acc := by
  unfold calculate_cashback
  cases hp : parseAmountField t.amount with
  | none => rfl
  | some a => simp [h a hp]

theorem foldl_cashback_skip (l : List STransaction) (acc : List (String × ℚ))
    (h : ∀ t ∈ l, ∀ a, parseAmountField t.amount = some a → 0 ≤ a) :
    l.foldl calculate_cashback acc = acc := by
  induction l generalizing acc with
  | nil => rfl
  | cons t rest ih =>
      simp only [List.foldl_cons]
      rw [calculate_cashback_skip acc t (h t (List.mem_cons_self t rest))]
      exact ih acc (fun u hu => h u (List.mem_cons_of_mem t hu))

theorem map_cashback_eq_rows (cat : String) (l : List STransaction) :
    (l.map (cashbackContribution cat)).sum
      = (((l.filterMap
            (fun t => (parseAmountField t.amount).bind
              (fun a => if a < 0
                then some (categoryStr t.category, |a| * (1 / 100))
                else none))).filter
          (fun p => p.1 == cat)).map Prod.snd).sum := by
  induction l with
  | nil => simp
  | cons t rest ih =>
      simp only [List.map_cons, List.sum_cons, List.filterMap_cons]
      cases h : parseAmountField t.amount with
      | none => simpa [cashbackContribution, h] using ih
      | some a =>
          by_cases hneg : a < 0
          · have hna : ¬ 0 ≤ a := not_le.mpr hneg
            by_cases hcat : categoryStr t.category = cat
            · simp [cashbackContribution, h, hna, hneg, hcat, ih]
            · simp [cashbackContribution, h, hna, hneg, hcat, ih]
          · have hge : 0 ≤ a := not_lt.mp hneg
            simp [cashbackContribution, h, hge, hneg, ih]

/-- C6: the cashback ranking discards records with unparseable date,
unparseable amount or non-negative amount; each bucket's value is the sum of
`abs(amount) * 0.01` over the month's qualifying records stringified to that
bucket; a record without a category key lands in the literal "Другое" bucket;
an empty or no-match input produces the empty mapping. -/
theorem profitable_cashback_spec (data : List STransaction) (year month : ℤ)
    (cat : String) :
    lookupD (profitable_cashback_categories data year month) cat
      = (((cashbackRows data year month).filter
          (fun p => p.1 == cat)).map Prod.snd).sum
    ∧ ((∀ t ∈ data, matchesYearMonth year month t.opDate = true →
          ∀ a, parseAmountField t.amount = some a → 0 ≤ a) →
        profitable_cashback_categories data year month = [])
    ∧ profitable_cashback_categories [] year month = []
    ∧ categoryStr none = "Другое" := by
  refine ⟨?_, ?_, rfl, rfl⟩
  · unfold profitable_cashback_categories cashbackRows
    rw [lookupD_foldl_cashback, map_cashback_eq_rows]
    simp [lookupD]
  · intro h
    unfold profitable_cashback_categories
    refine foldl_cashback_skip _ _ ?_
    intro t ht
    obtain ⟨htd, htm⟩ := List.mem_filter.mp ht
    exact h t htd htm

/-- C6 witness: the theorem applied to the October fixture and the
"Супермаркеты" bucket, and its empty-result conjunct applied to a
single-refund list. -/
theorem profitable_cashback_spec_witness :
    lookupD (profitable_cashback_categories octoberSample 2023 10)
        "Супермаркеты"
      = (((cashbackRows octoberSample 2023 10).filter
          (fun p => p.1 == "Супермаркеты")).map Prod.snd).sum
    ∧ profitable_cashback_categories
        [⟨.strOk ⟨daysFromCivil 2023 10 20, 0⟩, .null,
          some (some "Возврат")⟩] 2023 10 = [] :=
  ⟨(profitable_cashback_spec octoberSample 2023 10 "Супермаркеты").1,
    (profitable_cashback_spec
        [⟨.strOk ⟨daysFromCivil 2023 10 20, 0⟩, .null,
          some (some "Возврат")⟩] 2023 10 "Возврат").2.1
      (by
        intro t ht hm a ha
        rw [List.mem_singleton] at ht
        subst ht
        simp [parseAmountField] at ha)⟩

/-- C10: a qualifying record whose category key is present but null is
accumulated under the stringified null bucket "None", not under "Другое":
appending such a record adds its cashback to the "None" bucket and leaves the
"Другое" bucket unchanged. -/
theorem cashback_null_category_bucket (data : List STransaction)
    (year month : ℤ) (t : STransaction) (a : ℚ)
    (hd : matchesYearMonth year month t.opDate = true)
    (ha : parseAmountField t.amount = some a) (hneg : a < 0)
    (hc : t.category = some none) :
    lookupD (profitable_cashback_categories (data ++ [t]) year month) "None"
      = lookupD (profitable_cashback_categories data year month) "None"
        + |a| * (1 / 100)
    ∧ lookupD (profitable_cashback_categories (data ++ [t]) year month)
        "Другое"
      = lookupD (profitable_cashback_categories data year month) "Другое" := by
  unfold profitable_cashback_categories
  simp only [List.filter_append, List.foldl_append]
  have hft : List.filter
      (fun t' => matchesYearMonth year month t'.opDate) [t] = [t] := by
    simp [hd]
  rw [hft]
  have hna : ¬ 0 ≤ a := not_le.mpr hneg
  constructor
  · simp only [List.foldl_cons, List.foldl_nil]
    rw [lookupD_calculate_cashback]
    simp [cashbackContribution, ha, hna, hc, categoryStr]
  · simp only [List.foldl_cons, List.foldl_nil]
    rw [lookupD_calculate_cashback]
    simp [cashbackContribution, ha, hna, hc, categoryStr]

/-- C10 witness: the theorem applied to the October fixture extended by an
October expense of 300 whose category is null. -/
theorem cashback_null_category_bucket_witness :
    matchesYearMonth 2023 10
        (RawDate.dt ⟨daysFromCivil 2023 10 15, 0⟩) = true
    ∧ lookupD (profitable_cashback_categories
        (octoberSample ++ [⟨.dt ⟨daysFromCivil 2023 10 15, 0⟩, .num (-300),
          some none⟩]) 2023 10) "None"
      = lookupD (profitable_cashback_categories octoberSample 2023 10) "None"
        + |(-300 : ℚ)| * (1 / 100) :=
  ⟨by decide,
    (cashback_null_category_bucket octoberSample 2023 10
      ⟨.dt ⟨daysFromCivil 2023 10 15, 0⟩, .num (-300), some none⟩ (-300)
      (by decide) rfl (by norm_num) rfl).1⟩

/-- C2 (amended): for every well-formed month argument, transaction list and
positive integer round_to, each qualifying expense with magnitude `a`
contributes exactly `max(floor((a + round_to - 1)/round_to)*round_to - a, 0)`
— the float floor-division surrogate of the ceiling, which equals the
smallest multiple of `round_to` at least `a` whenever `a` is an integer, but
contributes 0 when `a` exceeds a multiple by less than 1 — and the result is
the sum of these contributions over the qualifying rows, `0.0` when no row
qualifies. -/
theorem investment_bank_roundup_sum (month : List (Option ℤ))
    (txs : List STransaction) (limit y m : ℤ)
    (hm : parseMonthArg month = some (y, m)) (hpos : 0 < limit) :
    investment_bank month txs limit
      = ((qualifyingAbs
            (txs.filter (fun t => matchesYearMonth y m t.opDate))).map
          (roundupContribution limit)).sum
    ∧ (qualifyingAbs (txs.filter (fun t => matchesYearMonth y m t.opDate)) = []
        → investment_bank month txs limit = 0) := by
  have h1 : investment_bank month txs limit
      = ((qualifyingAbs
            (txs.filter (fun t => matchesYearMonth y m t.opDate))).map
          (roundupContribution limit)).sum := by
    unfold investment_bank
    rw [hm]
    simp only
    rw [foldl_calculate_rounding, map_contribution_eq_qualifying]
    ring
  exact ⟨h1, fun he => by rw [h1, he]; simp⟩

/-- C2 witness: the theorem applied to a single October expense of 150 with
round_to 100. -/
theorem investment_bank_roundup_sum_witness :
    parseMonthArg [some 2023, some 10] = some (2023, 10)
    ∧ (0 : ℤ) < 100
    ∧ investment_bank [some 2023, some 10]
        [⟨.strOk ⟨daysFromCivil 2023 10 5, 43200⟩, .strOk (-150),
          some (some "Еда")⟩] 100
        = ((qualifyingAbs
              ([(⟨.strOk ⟨daysFromCivil 2023 10 5, 43200⟩, .strOk (-150),
                  some (some "Еда")⟩ : STransaction)].filter
                (fun t => matchesYearMonth 2023 10 t.opDate))).map
            (roundupContribution 100)).sum :=
  ⟨by decide, by decide,
    (investment_bank_roundup_sum [some 2023, some 10]
      [⟨.strOk ⟨daysFromCivil 2023 10 5, 43200⟩, .strOk (-150),
        some (some "Еда")⟩] 100 2023 10 (by decide) (by decide)).1⟩

/-- C2 counterexample: the claim's ceiling formula gives 99.5 for the
magnitude 200.50 with round_to 100, yet the code's total over a list holding
exactly that expense is 0. -/
theorem investment_bank_ceiling_claim_cx :
    investment_bank [some 2023, some 10]
      [⟨.strOk ⟨daysFromCivil 2023 10 10, 55800⟩, .strOk (-401/2),
        some (some "АЗС")⟩] 100 = 0
    ∧ spec_roundup 100 (401/2) = 199/2
    ∧ (0 : ℚ) ≠ 199/2 :=
  ⟨by with_unfolding_all decide, by with_unfolding_all decide, by norm_num⟩

/-- C3 (amended): appending an additional expense never decreases the
round-up total, every record's contribution being nonnegative; the total is
however not monotone in the magnitude of an individual expense amount. -/
theorem investment_bank_append_mono (month : List (Option ℤ))
    (txs : List STransaction) (t : STransaction) (limit : ℤ) :
    investment_bank month txs limit
      ≤ investment_bank month (txs ++ [t]) limit := by
  unfold investment_bank
  cases hm : parseMonthArg month with
  | none => simp
  | some ym =>
      obtain ⟨y, m⟩ := ym
      simp only [List.filter_append, List.foldl_append]
      rw [foldl_calculate_rounding, foldl_calculate_rounding]
      have hnn : 0 ≤ (((List.filter
            (fun t' => matchesYearMonth y m t'.opDate) [t]).map
          (contributionOf limit))).sum := by
        refine List.sum_nonneg ?_
        intro x hx
        obtain ⟨u, _, rfl⟩ := List.mem_map.mp hx
        exact contributionOf_nonneg limit u
      linarith

/-- C3 counterexample: raising the single qualifying expense's magnitude from
150 to 199 (round_to 100) drops the total from 50 to 1. -/
theorem investment_bank_magnitude_cx :
    investment_bank [some 2023, some 10]
      [⟨.strOk ⟨daysFromCivil 2023 10 5, 43200⟩, .strOk (-150),
        some (some "Еда")⟩] 100 = 50
    ∧ investment_bank [some 2023, some 10]
      [⟨.strOk ⟨daysFromCivil 2023 10 5, 43200⟩, .strOk (-199),
        some (some "Еда")⟩] 100 = 1
    ∧ |(-150 : ℚ)| < |(-199 : ℚ)|
    ∧ (1 : ℚ) < 50 :=
  ⟨by with_unfolding_all decide, by with_unfolding_all decide,
    by norm_num, by norm_num⟩

/-- C5 (amended): with round_to 500, a -1500.00 expense is rounded to the
target 1500 (1500 already being a multiple of 500) and contributes 0; over
the October fixture the contributions accumulate additively across the
qualifying rows only, to 999.5. -/
theorem investment_bank_1500_rounds_to_1500 :
    (((1500 : ℚ) + 500 - 1) / (500 : ℚ)).floor * 500 = 1500
    ∧ roundupContribution 500 1500 = 0
    ∧ investment_bank [some 2023, some 10] octoberSample 500 = 1999/2 :=
  ⟨by with_unfolding_all decide, by with_unfolding_all decide,
    by with_unfolding_all decide⟩

/-- C5 counterexample: a list holding exactly one October expense of -1500.00
yields a total of 0 with round_to 500, not the claimed per-row roundup of
500. -/
theorem investment_bank_1500_claim_cx :
    investment_bank [some 2023, some 10]
      [⟨.strOk ⟨daysFromCivil 2023 10 5, 43200⟩, .strOk (-1500),
        some (some "Супермаркеты")⟩] 500 = 0
    ∧ (0 : ℚ) ≠ 500 :=
  ⟨by with_unfolding_all decide, by norm_num⟩

/-- C7: no core function raises on malformed data — a malformed month
argument makes `investment_bank` return `0.0`, and a record whose amount
string is unparseable leaves both the cashback and the round-up accumulators
unchanged (it is skipped, not treated as zero). -/
theorem malformed_input_degrades_to_zero (month : List (Option ℤ))
    (txs : List STransaction) (limit : ℤ) (acc : ℚ)
    (accD : List (String × ℚ)) (t : STransaction)
    (hm : parseMonthArg month = none) (ht : t.amount = RawAmount.strBad) :
    investment_bank month txs limit = 0
    ∧ calculate_rounding limit acc t = acc
    ∧ calculate_cashback accD t = accD := by
  refine ⟨?_, ?_, ?_⟩
  · unfold investment_bank
    rw [hm]
  · simp [calculate_rounding, ht, parseAmountField]
  · simp [calculate_cashback, ht, parseAmountField]

/-- C7 witness: the theorem applied to the month argument "2023/10" (one
dash-free piece `int()` rejects) and a record whose amount string is "не
число". -/
theorem malformed_input_degrades_to_zero_witness :
    parseMonthArg [none] = none
    ∧ (⟨.strOk ⟨daysFromCivil 2023 10 5, 43200⟩, .strBad,
        some (some "Тест")⟩ : STransaction).amount = RawAmount.strBad
    ∧ investment_bank [none] octoberSample 100 = 0
    ∧ calculate_rounding 100 7
        ⟨.strOk ⟨daysFromCivil 2023 10 5, 43200⟩, .strBad,
          some (some "Тест")⟩ = 7
    ∧ calculate_cashback [("Еда", 1)]
        ⟨.strOk ⟨daysFromCivil 2023 10 5, 43200⟩, .strBad,
          some (some "Тест")⟩ = [("Еда", 1)] :=
  ⟨by decide, by with_unfolding_all decide,
    (malformed_input_degrades_to_zero [none] octoberSample 100 7 [("Еда", 1)]
      ⟨.strOk ⟨daysFromCivil 2023 10 5, 43200⟩, .strBad, some (some "Тест")⟩
      (by decide) (by with_unfolding_all decide)).1,
    (malformed_input_degrades_to_zero [none] octoberSample 100 7 [("Еда", 1)]
      ⟨.strOk ⟨daysFromCivil 2023 10 5, 43200⟩, .strBad, some (some "Тест")⟩
      (by decide) (by with_unfolding_all decide)).2.1,
    (malformed_input_degrades_to_zero [none] octoberSample 100 7 [("Еда", 1)]
      ⟨.strOk ⟨daysFromCivil 2023 10 5, 43200⟩, .strBad, some (some "Тест")⟩
      (by decide) (by with_unfolding_all decide)).2.2⟩

/-- C4 (amended): for every reference instant, the WEEK range starts at the
most recent Monday at or before the reference (the same calendar day allowed)
keeping the reference's time-of-day, and ends at that Monday plus 6 days (the
Sunday closing the week, at or after the reference) — not at the reference
instant itself. -/
theorem get_date_range_week_bounds (ref : DateTime) :
    weekdayOf (get_date_range ref Period.W).1.days = 0
    ∧ (get_date_range ref Period.W).1.days ≤ ref.days
    ∧ ref.days < (get_date_range ref Period.W).1.days + 7
    ∧ (get_date_range ref Period.W).1.secs = ref.secs
    ∧ (∀ d : ℤ, weekdayOf d = 0 → d ≤ ref.days →
        d ≤ (get_date_range ref Period.W).1.days)
    ∧ (get_date_range ref Period.W).2
        = ⟨(get_date_range ref Period.W).1.days + 6, ref.secs⟩
    ∧ ref.days ≤ (get_date_range ref Period.W).2.days := by
  have hs : get_date_range ref Period.W
      = (⟨ref.days - (ref.days + 3) % 7, ref.secs⟩,
         ⟨ref.days - (ref.days + 3) % 7 + 6, ref.secs⟩) := rfl
  rw [hs]
  simp only [weekdayOf]
  refine ⟨by omega, by omega, by omega, by trivial, ?_, by trivial, by omega⟩
  intro d hd hle
  omega

/-- C4 witness: the theorem at the reference 2023-06-15 12:00:00 (a
Thursday), its Monday-maximality conjunct applied to the Monday 2023-06-05. -/
theorem get_date_range_week_bounds_witness :
    weekdayOf (daysFromCivil 2023 6 5) = 0
    ∧ daysFromCivil 2023 6 5 ≤ (⟨daysFromCivil 2023 6 15, 43200⟩ : DateTime).days
    ∧ daysFromCivil 2023 6 5
        ≤ (get_date_range ⟨daysFromCivil 2023 6 15, 43200⟩ Period.W).1.days :=
  ⟨by decide, by decide,
    (get_date_range_week_bounds ⟨daysFromCivil 2023 6 15, 43200⟩).2.2.2.2.1
      (daysFromCivil 2023 6 5) (by decide) (by decide)⟩

/-- C4 counterexample: at the reference 2023-06-15 12:00:00 the code's WEEK
range ends on 2023-06-18 (the Sunday of that week), not at the reference
instant. -/
theorem get_date_range_week_end_cx :
    (get_date_range ⟨daysFromCivil 2023 6 15, 43200⟩ Period.W).2
        = ⟨daysFromCivil 2023 6 18, 43200⟩
    ∧ (get_date_range ⟨daysFromCivil 2023 6 15, 43200⟩ Period.W).2
        ≠ ⟨daysFromCivil 2023 6 15, 43200⟩ := by
  refine ⟨by decide, by decide⟩

theorem inWindowRow_iff (s e : DateTime) (r : FrameRow) :
    inWindowRow s e r = true
      ↔ ∃ d, r.opDate = some d ∧ dtLe s d ∧ dtLe d e := by
  unfold inWindowRow
  cases hr : r.opDate with
  | none => simp
  | some d => simp [dtLeB_iff]

/-- C8: `filter_transactions_by_date` keeps exactly the records whose
operation date lies in the inclusive window `[start, end]`; records with a
missing operation date are excluded; a frame without the operation-date
column is returned unchanged. -/
theorem filter_transactions_by_date_spec (t : TransactionFrame)
    (s e : DateTime) :
    (t.hasOpDate = false → filter_transactions_by_date t s e = t)
    ∧ (filter_transactions_by_date t s e).rows.Sublist t.rows
    ∧ (t.hasOpDate = true →
        ∀ r : FrameRow, r ∈ (filter_transactions_by_date t s e).rows ↔
          (r ∈ t.rows ∧ ∃ d, r.opDate = some d ∧ dtLe s d ∧ dtLe d e)) := by
  refine ⟨?_, ?_, ?_⟩
  · intro hf
    unfold filter_transactions_by_date
    simp [hf]
  · unfold filter_transactions_by_date
    split
    · exact List.Sublist.refl _
    · exact List.filter_sublist _
  · intro ht r
    unfold filter_transactions_by_date
    rw [if_neg (by simp [ht])]
    show r ∈ t.rows.filter (inWindowRow s e) ↔ _
    rw [List.mem_filter, inWindowRow_iff]

/-- C8 witness: the theorem applied to a dateless frame (returned unchanged)
and to a one-row frame whose row lies inside the window. -/
theorem filter_transactions_by_date_spec_witness :
    (⟨false, [⟨none, some "Еда", -5⟩]⟩ : TransactionFrame).hasOpDate = false
    ∧ filter_transactions_by_date ⟨false, [⟨none, some "Еда", -5⟩]⟩
        ⟨0, 0⟩ ⟨100, 0⟩ = ⟨false, [⟨none, some "Еда", -5⟩]⟩
    ∧ ((⟨some ⟨50, 0⟩, some "Еда", -5⟩ : FrameRow)
          ∈ (filter_transactions_by_date
              ⟨true, [⟨some ⟨50, 0⟩, some "Еда", -5⟩]⟩ ⟨0, 0⟩ ⟨100, 0⟩).rows ↔
        ((⟨some ⟨50, 0⟩, some "Еда", -5⟩ : FrameRow)
            ∈ [(⟨some ⟨50, 0⟩, some "Еда", -5⟩ : FrameRow)]
          ∧ ∃ d, (⟨some ⟨50, 0⟩, some "Еда", -5⟩ : FrameRow).opDate = some d
              ∧ dtLe ⟨0, 0⟩ d ∧ dtLe d ⟨100, 0⟩)) :=
  ⟨rfl,
    (filter_transactions_by_date_spec ⟨false, [⟨none, some "Еда", -5⟩]⟩
      ⟨0, 0⟩ ⟨100, 0⟩).1 rfl,
    (filter_transactions_by_date_spec ⟨true, [⟨some ⟨50, 0⟩, some "Еда", -5⟩]⟩
      ⟨0, 0⟩ ⟨100, 0⟩).2.2 rfl _⟩

theorem sorted_lt_of_le_nodup {l : List ℤ}
    (hs : l.Pairwise (· ≤ ·)) (hn : l.Nodup) : l.Pairwise (· < ·) :=
  (hs.and hn).imp (fun h => lt_of_le_of_ne h.1 h.2)

theorem map_fst_mk (L : List ℤ) (f : ℤ → ℚ) :
    (L.map (fun m => (m, f m))).map Prod.fst = L := by
  induction L with
  | nil => rfl
  | cons a L ih => simp [ih]

theorem filterMap_month_amount (l : List FrameRow) (m : ℤ) :
    ((l.filterMap
        (fun r => r.opDate.map (fun d => (monthKey d, r.amount)))).filter
      (fun p => p.1 == m)).map Prod.snd
      = (l.filter (fun r => rowMonth r == some m)).map FrameRow.amount := by
  simp only [rowMonth]
  induction l with
  | nil => rfl
  | cons r rest ih =>
      cases hr : r.opDate with
      | none =>
          simp only [List.filterMap_cons, hr, List.filter_cons,
            Option.map_none']
          simpa using ih
      | some d =>
          simp only [List.filterMap_cons, hr, Option.map_some',
            List.filter_cons]
          by_cases hm : monthKey d = m
          · simp [hm, ih]
          · simp [hm, ih]

theorem spending_by_category_eq (txs : List FrameRow) (category : String)
    (endDate : DateTime) :
    spending_by_category txs category endDate
      = if (txs.filter (passesCategoryWindow category endDate)).isEmpty
        then []
        else (monthsSorted txs category endDate).map
          (fun m => (m, |(((monthRows txs category endDate).filter
              (fun p => p.1 == m)).map Prod.snd).sum|)) := rfl

/-- C1 (amended): `spending_by_category` filters to the 90-day trailing
window and the exact category, groups by the calendar month of the operation
date, and each emitted row's value is the absolute value of the signed sum of
that month's amounts (not the sum of per-row absolute values); rows are
sorted by month strictly ascending, each emitted month has at least one
matching transaction, and every matching transaction's month is emitted. -/
theorem spending_by_category_monthly (txs : List FrameRow) (category : String)
    (endDate : DateTime) :
    ((spending_by_category txs category endDate).map Prod.fst).Pairwise (· < ·)
    ∧ (∀ p ∈ spending_by_category txs category endDate,
        p.2 = |monthAmountSum txs category endDate p.1|
        ∧ ∃ r ∈ txs, passesCategoryWindow category endDate r = true
            ∧ rowMonth r = some p.1)
    ∧ (∀ r ∈ txs, passesCategoryWindow category endDate r = true →
        ∀ d, r.opDate = some d →
          ∃ p ∈ spending_by_category txs category endDate,
            p.1 = monthKey d) := by
  rw [spending_by_category_eq]
  by_cases hF : (txs.filter (passesCategoryWindow category endDate)).isEmpty
  · rw [if_pos hF]
    refine ⟨List.Pairwise.nil, by simp, ?_⟩
    intro r hr hpass d _
    have : r ∈ txs.filter (passesCategoryWindow category endDate) :=
      List.mem_filter.mpr ⟨hr, hpass⟩
    rw [List.isEmpty_iff] at hF
    rw [hF] at this
    exact absurd this (List.not_mem_nil r)
  · rw [if_neg hF]
    refine ⟨?_, ?_, ?_⟩
    · rw [map_fst_mk]
      refine sorted_lt_of_le_nodup ?_ ?_
      · exact List.sorted_insertionSort (· ≤ ·) _
      · exact ((List.perm_insertionSort _ _).nodup_iff).mpr
          (List.nodup_dedup _)
    · intro p hp
      obtain ⟨m, hm, rfl⟩ := List.mem_map.mp hp
      constructor
      · show |(((monthRows txs category endDate).filter
            (fun p => p.1 == m)).map Prod.snd).sum| = _
        rw [monthRows, filterMap_month_amount]
        rfl
      · have hm' : m ∈ ((monthRows txs category endDate).map Prod.fst).dedup :=
          (List.mem_insertionSort _).mp hm
        have hm'' : m ∈ (monthRows txs category endDate).map Prod.fst :=
          List.mem_dedup.mp hm'
        obtain ⟨q, hq, hq1⟩ := List.mem_map.mp hm''
        obtain ⟨r, hrF, hrq⟩ := List.mem_filterMap.mp hq
        obtain ⟨d, hd, hdq⟩ := Option.map_eq_some'.mp hrq
        obtain ⟨hrtxs, hrpass⟩ := List.mem_filter.mp hrF
        refine ⟨r, hrtxs, hrpass, ?_⟩
        rw [rowMonth, hd, Option.map_some']
        rw [← hq1, ← hdq]
    · intro r hr hpass d hd
      have hrF : r ∈ txs.filter (passesCategoryWindow category endDate) :=
        List.mem_filter.mpr ⟨hr, hpass⟩
      have hq : (monthKey d, r.amount) ∈ monthRows txs category endDate :=
        List.mem_filterMap.mpr ⟨r, hrF, by rw [hd]; rfl⟩
      have hmk : monthKey d ∈ (monthRows txs category endDate).map Prod.fst :=
        List.mem_map_of_mem Prod.fst hq
      have hmd : monthKey d
          ∈ ((monthRows txs category endDate).map Prod.fst).dedup :=
        List.mem_dedup.mpr hmk
      have hms : monthKey d ∈ monthsSorted txs category endDate :=
        (List.mem_insertionSort _).mpr hmd
      exact ⟨_, List.mem_map.mpr ⟨monthKey d, hms, rfl⟩, rfl⟩

/-- C1 witness: the theorem applied to a one-expense August list anchored at
2023-08-31; the row's month is emitted. -/
theorem spending_by_category_monthly_witness :
    (⟨some ⟨daysFromCivil 2023 8 10, 0⟩, some "Еда", -500⟩ : FrameRow)
        ∈ [(⟨some ⟨daysFromCivil 2023 8 10, 0⟩, some "Еда", -500⟩ : FrameRow)]
    ∧ passesCategoryWindow "Еда" ⟨daysFromCivil 2023 8 31, 0⟩
        ⟨some ⟨daysFromCivil 2023 8 10, 0⟩, some "Еда", -500⟩ = true
    ∧ ∃ p ∈ spending_by_category
        [⟨some ⟨daysFromCivil 2023 8 10, 0⟩, some "Еда", -500⟩] "Еда"
        ⟨daysFromCivil 2023 8 31, 0⟩,
        p.1 = monthKey ⟨daysFromCivil 2023 8 10, 0⟩ :=
  ⟨List.mem_singleton.mpr rfl, by with_unfolding_all decide,
    (spending_by_category_monthly
        [⟨some ⟨daysFromCivil 2023 8 10, 0⟩, some "Еда", -500⟩] "Еда"
        ⟨daysFromCivil 2023 8 31, 0⟩).2.2
      ⟨some ⟨daysFromCivil 2023 8 10, 0⟩, some "Еда", -500⟩
      (List.mem_singleton.mpr rfl) (by with_unfolding_all decide)
      ⟨daysFromCivil 2023 8 10, 0⟩ rfl⟩

/-- C1 counterexample: two same-month rows of amounts -500 and +300 inside
the window produce the row value |(-500) + 300| = 200, while the sum of the
per-row absolute values is 800. -/
theorem spending_by_category_claim_cx :
    spending_by_category
      [⟨some ⟨daysFromCivil 2023 8 10, 0⟩, some "Еда", -500⟩,
       ⟨some ⟨daysFromCivil 2023 8 12, 0⟩, some "Еда", 300⟩] "Еда"
      ⟨daysFromCivil 2023 8 31, 0⟩ = [(2023 * 12 + 8, 200)]
    ∧ ((([⟨some ⟨daysFromCivil 2023 8 10, 0⟩, some "Еда", -500⟩,
          ⟨some ⟨daysFromCivil 2023 8 12, 0⟩, some "Еда", 300⟩]
            : List FrameRow).filter
          (passesCategoryWindow "Еда" ⟨daysFromCivil 2023 8 31, 0⟩)).map
        (fun r => |r.amount|)).sum = 800
    ∧ (200 : ℚ) ≠ 800 :=
  ⟨by with_unfolding_all decide, by with_unfolding_all decide, by norm_num⟩

/-- C9: in the events-page composition, expense categories are sorted
descending by summed absolute expense, the first 7 are emitted with values
rounded to 2 decimal places, and the remaining categories collapse into one
additional "Остальное" entry exactly when more than 7 distinct categories
exist and their summed remainder is strictly positive; the headline expense
and income totals are rounded to the nearest whole unit. -/
theorem events_page_data_spec (t : TransactionFrame) (dt : DateTime)
    (p : Period) :
    (events_page_data t dt p).expensesTotal
      = round_half_even ((((eventsWindowRows t dt p).filter
          (fun r => r.amount < 0)).map (fun r => |r.amount|)).sum)
    ∧ (events_page_data t dt p).incomeTotal
      = round_half_even ((((eventsWindowRows t dt p).filter
          (fun r => 0 < r.amount)).map FrameRow.amount).sum)
    ∧ (eventsSortedCats t dt p).Pairwise valGe
    ∧ (eventsSortedCats t dt p).Perm
        (groupSumsByCategory (eventsExpensePairs t dt p))
    ∧ (∀ c v, (c, v) ∈ eventsSortedCats t dt p →
        v = (((eventsExpensePairs t dt p).filter
            (fun q => q.1 == c)).map Prod.snd).sum)
    ∧ (events_page_data t dt p).expensesMain
      = ((eventsSortedCats t dt p).take 7).map (fun q => (q.1, round2 q.2))
        ++ (if 7 < (groupSumsByCategory (eventsExpensePairs t dt p)).length
              ∧ 0 < (((eventsSortedCats t dt p).drop 7).map Prod.snd).sum
            then [("Остальное",
              round2 ((((eventsSortedCats t dt p).drop 7).map
                Prod.snd).sum))]
            else []) := by
  refine ⟨rfl, rfl, ?_, ?_, ?_, ?_⟩
  · exact List.sorted_insertionSort valGe _
  · exact List.perm_insertionSort valGe _
  · intro c v h
    have h' : (c, v) ∈ groupSumsByCategory (eventsExpensePairs t dt p) :=
      (List.mem_insertionSort _).mp h
    unfold groupSumsByCategory at h'
    obtain ⟨c', _, hc'⟩ := List.mem_map.mp h'
    obtain ⟨hc, hv⟩ := Prod.mk.injEq .. ▸ hc'
    rw [← hv, ← hc]
  · have hlen : (eventsSortedCats t dt p).length
        = (groupSumsByCategory (eventsExpensePairs t dt p)).length :=
      List.length_insertionSort _ _
    have hmain : (events_page_data t dt p).expensesMain
        = ((eventsSortedCats t dt p).take 7).map
            (fun q => (q.1, round2 q.2))
          ++ (if 0 < (if 7 < (eventsSortedCats t dt p).length
                then (((eventsSortedCats t dt p).drop 7).map Prod.snd).sum
                else 0)
              then [("Остальное",
                round2 (if 7 < (eventsSortedCats t dt p).length
                  then (((eventsSortedCats t dt p).drop 7).map Prod.snd).sum
                  else 0))]
              else []) := rfl
    rw [hmain, ← hlen]
    by_cases h7 : 7 < (eventsSortedCats t dt p).length
    · simp only [h7, if_true, true_and]
    · simp only [h7, if_false, false_and, if_neg (lt_irrefl 0)]
      simp

/-- C9 witness: the theorem's per-entry value conjunct applied to a two-row
June frame and the category "Еда". -/
theorem events_page_data_spec_witness :
    (("Еда", (800 : ℚ))
        ∈ eventsSortedCats
          ⟨true, [⟨some ⟨daysFromCivil 2023 6 10, 0⟩, some "Еда", -800⟩,
                  ⟨some ⟨daysFromCivil 2023 6 11, 0⟩, some "Дом", -100⟩]⟩
          ⟨daysFromCivil 2023 6 15, 43200⟩ Period.M)
    ∧ (800 : ℚ)
      = (((eventsExpensePairs
            ⟨true, [⟨some ⟨daysFromCivil 2023 6 10, 0⟩, some "Еда", -800⟩,
                    ⟨some ⟨daysFromCivil 2023 6 11, 0⟩, some "Дом", -100⟩]⟩
            ⟨daysFromCivil 2023 6 15, 43200⟩ Period.M).filter
          (fun q => q.1 == "Еда")).map Prod.snd).sum :=
  ⟨by with_unfolding_all decide,
    (events_page_data_spec
        ⟨true, [⟨some ⟨daysFromCivil 2023 6 10, 0⟩, some "Еда", -800⟩,
                ⟨some ⟨daysFromCivil 2023 6 11, 0⟩, some "Дом", -100⟩]⟩
        ⟨daysFromCivil 2023 6 15, 43200⟩ Period.M).2.2.2.2.1 "Еда" 800
      (by with_unfolding_all decide)⟩

end BankFixtures
